import Mathlib

/-!
Verification of the cluster coordination core of MyGeoEyeV4
(`src/server/clusterManager.py`), as a shallow embedding in Lean 4.

Modelling conventions:
* Timestamps (`time.time()` results) and the timeout are modelled as `Int`;
  the comparisons in the source are direct numeric comparisons on them.
* A registered node (one the manager has admitted through `add_node`) is a
  Python dict carrying the caller payload plus the keys `id`,
  `last_heartbeat` and `status` that `add_node` writes; those registered
  nodes are modelled by the structure `Node`, with the caller payload kept
  opaque in the single field `info`.  A separate raw dict-level model
  (`RawNode`, further down) is used for states whose entries may lack keys.
* `uuid.uuid4()` is modelled as an external stream `supply : Nat → String`
  of generated identifiers: the n-th generation returns `supply n`.
  Uniqueness theorems assume the stream has no repeats
  (`Function.Injective supply`), the guarantee uuid4 provides.
* Exceptions are modelled with `Except`.
-/

namespace ClusterManager

/-- `node['status']`: the source stores the strings `'active'` / `'inactive'`. -/
inductive Status where
  | active
  | inactive
deriving DecidableEq, Repr

/-- A node dict after admission through `add_node`: the keys written by
`add_node` (`id`, `last_heartbeat`, `status`) plus the caller-supplied
payload (host, port, capacity, ...) kept opaque as `info`. -/
structure Node where
  id : String
  info : String
  last_heartbeat : Int
  status : Status
deriving DecidableEq, Repr

/-- Errors raised by the manager.  The source raises a bare `Exception`
with a message for the insufficient-healthy-nodes case; `valueError` is the
`ValueError` that `ThreadPoolExecutor` raises for `max_workers <= 0` (line
182), re-raised by the `except` at lines 208-210. -/
inductive ClusterError where
  | insufficient
  | valueError
deriving DecidableEq, Repr

/-- `self.node_timeout = 30  # segundos` -/
def node_timeout : Int := 30

/-- `self.health_check_interval = 60  # segundos` -/
def health_check_interval : Int := 60

/-- The filter predicate of `get_healthy_nodes`:
`node['status'] == 'active' and current_time - node['last_heartbeat'] < self.node_timeout`. -/
def isHealthy (now timeout : Int) (n : Node) : Bool :=
  n.status == .active && now - n.last_heartbeat < timeout

/-- `get_healthy_nodes` (clusterManager.py lines 73-96): filters the healthy
nodes and raises when fewer than `min_nodes` remain.  `current_time` is the
`time.time()` value read at line 83. -/
def get_healthy_nodes (now timeout : Int) (nodes : List Node)
    (min_nodes : Nat := 1) : Except ClusterError (List Node) :=
  let healthy_nodes := nodes.filter (isHealthy now timeout)
  if healthy_nodes.length < min_nodes then
    .error .insufficient
  else
    .ok healthy_nodes

/-- `self.nodes.append(self.nodes.pop(0))` (line 119): the front element of
the full registry is moved to the back. -/
def rotateFront (nodes : List Node) : List Node :=
  match nodes with
  | [] => []
  | x :: xs => xs ++ [x]

/-- `select_node_for_operation` (lines 98-122): takes the healthy nodes,
returns the first of them, and rotates the front of the FULL registry to the
back.  Returns the selected node together with the registry after the
rotation side effect.  The `.ok []` branch is unreachable because
`min_nodes = 1` guarantees a nonempty healthy list (the source would raise
`IndexError` there). -/
def select_node_for_operation (now timeout : Int) (nodes : List Node) :
    Except ClusterError (Node × List Node) :=
  match get_healthy_nodes now timeout nodes 1 with
  | .error e => .error e
  | .ok [] => .error .insufficient
  | .ok (selected :: _) => .ok (selected, rotateFront nodes)

/-- The per-node body of the health-check sweep (lines 134-138):
`if current_time - node['last_heartbeat'] > self.node_timeout: node['status'] = 'inactive'`. -/
def healthUpdate (now timeout : Int) (n : Node) : Node :=
  if now - n.last_heartbeat > timeout then { n with status := .inactive } else n

/-- One pass of the `_health_check` loop body (lines 131-138) over the
registry. -/
def health_check_sweep (now timeout : Int) (nodes : List Node) : List Node :=
  nodes.map (healthUpdate now timeout)

/-! ### Concrete nodes for the scenario theorems -/

/-- Node A of the spec's concrete scenario: fresh heartbeat at time 100. -/
def nodeA : Node := { id := "A", info := "hostA", last_heartbeat := 100, status := .active }

/-- Node B with a stale heartbeat (age 40 > timeout 30 at time 100), still
marked active (before a sweep). -/
def nodeB : Node := { id := "B", info := "hostB", last_heartbeat := 60, status := .active }

/-- Node B after a sweep has demoted it. -/
def nodeBdown : Node := { id := "B", info := "hostB", last_heartbeat := 60, status := .inactive }

/-- Node C of the spec's concrete scenario: fresh heartbeat at time 100. -/
def nodeC : Node := { id := "C", info := "hostC", last_heartbeat := 100, status := .active }

/-- A node at the exact freshness boundary, used as the C10 witness input. -/
def nodeX : Node := { id := "X", info := "hostX", last_heartbeat := 70, status := .active }

/-! ### C5: distributed dispatch outcomes -/

/-- Whether an operation invocation raised (`future.result()` at line 193
throwing, recorded by the `except` branch at lines 199-204). -/
def opRaises {ρ : Type} : Except String ρ → Bool
  | .error _ => true
  | .ok _ => false

/-- One per-node outcome dict appended to `results` (lines 194-204). -/
inductive Outcome (ρ : Type) where
  | success (node_id : String) (result : ρ)
  | failed (node_id : String) (error : String)
deriving DecidableEq, Repr

/-- `'status': 'failed'` marker of an outcome. -/
def Outcome.statusFailed {ρ : Type} : Outcome ρ → Bool
  | .failed _ _ => true
  | .success _ _ => false

/-- `'status': 'success'` marker of an outcome. -/
def Outcome.statusSuccess {ρ : Type} : Outcome ρ → Bool
  | .failed _ _ => false
  | .success _ _ => true

/-- How one completed future is recorded (lines 190-204): `success` with the
result when the operation returned, `failed` with the error text when it
raised. -/
def runOutcome {δ ρ : Type} (operation : Node → δ → Except String ρ) (data : δ)
    (n : Node) : Outcome ρ :=
  match operation n data with
  | .ok r => .success n.id r
  | .error e => .failed n.id e

/-- `perform_distributed_operation` (lines 157-210): takes the healthy nodes
(`min_nodes = 1`, so it raises when none is healthy), then constructs
`ThreadPoolExecutor(max_workers=max_concurrent_nodes)` — which raises
`ValueError` when `max_concurrent_nodes = 0`, re-raised at line 210 —
submits the operation for the first `max_concurrent_nodes` healthy nodes,
and collects one outcome per submitted node.  `as_completed` yields the
outcomes in nondeterministic completion order, so the aggregate is modelled
as a `Multiset`. -/
def perform_distributed_operation {δ ρ : Type} (now timeout : Int) (nodes : List Node)
    (operation : Node → δ → Except String ρ) (data : δ)
    (max_concurrent_nodes : Nat := 3) : Except ClusterError (Multiset (Outcome ρ)) :=
  match get_healthy_nodes now timeout nodes 1 with
  | .error e => .error e
  | .ok healthy_nodes =>
      if max_concurrent_nodes = 0 then
        .error .valueError
      else
        .ok (((healthy_nodes.take max_concurrent_nodes).map
          (runOutcome operation data) : List (Outcome ρ)) : Multiset (Outcome ρ))

/-! ### C6: id uniqueness across AddNode call sequences -/

/-- Manager state: the registry plus how many identifiers have been drawn
from the uuid stream so far. -/
structure ClusterState where
  nodes : List Node
  drawn : Nat
deriving DecidableEq, Repr

/-- `add_node` (lines 36-56): draws the next id from the uuid stream, writes
`id`, `last_heartbeat = now` and `status = 'active'` into the caller's dict,
appends it to the registry and returns the id. -/
def add_node (supply : Nat → String) (now : Int) (st : ClusterState)
    (info : String) : String × ClusterState :=
  let node_id := supply st.drawn
  (node_id,
   { nodes := st.nodes ++
       [{ id := node_id, info := info, last_heartbeat := now, status := .active }],
     drawn := st.drawn + 1 })

/-- `remove_node` (lines 58-71): keeps exactly the nodes whose id differs. -/
def remove_node (st : ClusterState) (node_id : String) : ClusterState :=
  { st with nodes := st.nodes.filter (fun n => n.id != node_id) }

/-- One mutating call on the manager. -/
inductive ClusterOp where
  | addNode (info : String) (now : Int)
  | removeNode (node_id : String)
  | selectNode (now : Int)
  | healthSweep (now : Int)

/-- The state transition of one call.  `selectNode` leaves the registry
unchanged when selection raises (the rotation at line 119 is then never
reached); `addNode` is the only call that returns an id. -/
def stepOp (supply : Nat → String) (timeout : Int) (st : ClusterState) :
    ClusterOp → ClusterState × Option String
  | .addNode info now =>
      let r := add_node supply now st info
      (r.2, some r.1)
  | .removeNode node_id => (remove_node st node_id, none)
  | .selectNode now =>
      match select_node_for_operation now timeout st.nodes with
      | .ok p => ({ st with nodes := p.2 }, none)
      | .error _ => (st, none)
  | .healthSweep now =>
      ({ st with nodes := health_check_sweep now timeout st.nodes }, none)

/-- Runs a call sequence, collecting the ids returned by `add_node`. -/
def runOps (supply : Nat → String) (timeout : Int) (st : ClusterState) :
    List ClusterOp → ClusterState × List String
  | [] => (st, [])
  | op :: ops =>
      let s1 := stepOp supply timeout st op
      let s2 := runOps supply timeout s1.1 ops
      (s2.1, s1.2.toList ++ s2.2)

/-- Registry ids are pairwise distinct and each was drawn from the stream. -/
def IdInvariant (supply : Nat → String) (st : ClusterState) : Prop :=
  (st.nodes.map Node.id).Nodup ∧
  ∀ n ∈ st.nodes, ∃ i, i < st.drawn ∧ n.id = supply i

/-- An injective uuid stream used by the C6 witness. -/
def unarySupply (i : Nat) : String := String.mk (List.replicate i 'a')

/-! ### C8: lock structure of mutating and snapshotting operations -/

/-- The two locks created in `__init__` (lines 26-27). -/
inductive LockId where
  | nodesLock
  | healthCheckLock
deriving DecidableEq, Repr

/-- The operations that mutate or snapshot the registry sequence. -/
inductive RegistryOp where
  | addNode
  | removeNode
  | selectRotate
  | healthSweepFlip
  | healthySnapshot
deriving DecidableEq, Repr

/-- The locks each operation holds while it touches `self.nodes`, read off
the `with` statements in the source: `add_node` (line 46), `remove_node`
(line 65) and `select_node_for_operation` (line 111) hold `_nodes_lock`;
the `_health_check` sweep holds `_health_check_lock` (line 131); the public
`get_healthy_nodes` read (lines 73-96) acquires no lock (it holds
`_nodes_lock` only when reached through `select_node_for_operation`). -/
def locksHeld : RegistryOp → List LockId
  | .addNode => [.nodesLock]
  | .removeNode => [.nodesLock]
  | .selectRotate => [.nodesLock]
  | .healthSweepFlip => [.healthCheckLock]
  | .healthySnapshot => []

/-- Two lock-guarded critical sections are mutually exclusive exactly when
they hold a common lock. -/
def mutexWith (a b : RegistryOp) : Bool :=
  (locksHeld a).any (fun l => (locksHeld b).contains l)

/-- Every pair of operations from the list is mutually exclusive. -/
def pairwiseMutex (l : List RegistryOp) : Bool :=
  l.all (fun a => l.all (fun b => mutexWith a b))

/-! ### C9: raw dict-level model for unadmitted initial nodes -/

/-- A Python value stored in a node dict (what this model needs). -/
inductive PyVal where
  | str (s : String)
  | int (i : Int)
deriving DecidableEq, Repr

/-- A node dict as stored: an insertion-ordered key/value list. -/
abbrev RawNode := List (String × PyVal)

/-- Python subscript `node[k]`: the value, or a `KeyError` on the key when
it is absent. -/
def dictGet (n : RawNode) (k : String) : Except String PyVal :=
  match n.find? (fun p => p.1 == k) with
  | some p => .ok p.2
  | none => .error k

/-- Python `node[k] = v`: replace the binding in place, or append a new
one when the key is absent. -/
def dictSet (n : RawNode) (k : String) (v : PyVal) : RawNode :=
  if n.any (fun p => p.1 == k) then
    n.map (fun p => if p.1 == k then (k, v) else p)
  else
    n ++ [(k, v)]

/-- Errors that can escape the raw-level operations. -/
inductive PyExc where
  | keyError (k : String)
  | typeError
  | insufficient
deriving DecidableEq, Repr

/-- `self.nodes = initial_nodes or []` (line 23): an absent or empty
argument yields the empty registry; a nonempty list is stored exactly as
passed — no id, status or heartbeat is assigned to its entries. -/
def clusterManager_init (initial_nodes : Option (List RawNode)) : List RawNode :=
  match initial_nodes with
  | none => []
  | some l => if l.isEmpty then [] else l

/-- The healthy test of lines 88-89 over a raw dict: `node['status']` is
read first; `node['last_heartbeat']` is read only when the status equals
`'active'`. -/
def rawIsHealthy (now timeout : Int) (n : RawNode) : Except PyExc Bool :=
  match dictGet n "status" with
  | .error k => .error (.keyError k)
  | .ok st =>
      if st = .str "active" then
        match dictGet n "last_heartbeat" with
        | .error k => .error (.keyError k)
        | .ok (.int t) => .ok (now - t < timeout)
        | .ok _ => .error .typeError
      else
        .ok false

/-- The list comprehension of lines 86-90: nodes are tested left to right
and the first error raised escapes. -/
def rawFilterHealthy (now timeout : Int) : List RawNode → Except PyExc (List RawNode)
  | [] => .ok []
  | n :: ns =>
      match rawIsHealthy now timeout n with
      | .error e => .error e
      | .ok b =>
          match rawFilterHealthy now timeout ns with
          | .error e => .error e
          | .ok rest => .ok (if b then n :: rest else rest)

/-- `get_healthy_nodes` (lines 73-96) over raw dicts. -/
def raw_get_healthy_nodes (now timeout : Int) (nodes : List RawNode)
    (min_nodes : Nat := 1) : Except PyExc (List RawNode) :=
  match rawFilterHealthy now timeout nodes with
  | .error e => .error e
  | .ok healthy =>
      if healthy.length < min_nodes then .error .insufficient else .ok healthy

/-- One `_health_check` sweep body (lines 131-138) over raw dicts:
`node['last_heartbeat']` is read for every node and stale nodes get
`node['status'] = 'inactive'`; the first error raised escapes the `for`
loop (the loop's `except` then logs it). -/
def raw_health_sweep (now timeout : Int) : List RawNode → Except PyExc (List RawNode)
  | [] => .ok []
  | n :: ns =>
      match dictGet n "last_heartbeat" with
      | .error k => .error (.keyError k)
      | .ok (.int t) =>
          match raw_health_sweep now timeout ns with
          | .error e => .error e
          | .ok rest =>
              .ok ((if now - t > timeout then dictSet n "status" (.str "inactive") else n) :: rest)
      | .ok _ => .error .typeError

/-- The `initial_nodes` example from the module's `__main__` block. -/
def rawInitialNodes : List RawNode :=
  [[("host", .str "node1.example.com"), ("port", .int 8000), ("storage_capacity", .int 1000)],
   [("host", .str "node2.example.com"), ("port", .int 8001), ("storage_capacity", .int 1500)]]

/-! ### C1, C2, C3: behavior of selection when the registry front is unhealthy -/

/-- **C1** (code_bug evaluation).  Spec scenario: registry [A, B, C], B's
heartbeat stale, sweep demotes B, `GetHealthyNodes(1)` returns exactly
[A, C]; the claim says three `SelectNode` calls then return A, C, A.  The
code instead returns A, C, C: the rotation at line 119 moves `self.nodes[0]`
(not the selected node) to the back, so after the second call the registry is
[C, A, B] and the third call selects C again. -/
theorem C1_scenario_code_returns_A_C_C :
    health_check_sweep 100 30 [nodeA, nodeB, nodeC] = [nodeA, nodeBdown, nodeC] ∧
    get_healthy_nodes 100 30 [nodeA, nodeBdown, nodeC] 1 = .ok [nodeA, nodeC] ∧
    select_node_for_operation 100 30 [nodeA, nodeBdown, nodeC] =
      .ok (nodeA, [nodeBdown, nodeC, nodeA]) ∧
    select_node_for_operation 100 30 [nodeBdown, nodeC, nodeA] =
      .ok (nodeC, [nodeC, nodeA, nodeBdown]) ∧
    select_node_for_operation 100 30 [nodeC, nodeA, nodeBdown] =
      .ok (nodeC, [nodeA, nodeBdown, nodeC]) :=
  ⟨rfl, rfl, rfl, rfl, rfl⟩

/-- **C2** (code_bug evaluation).  Claim: the node returned by `SelectNode`
is the one moved to the back of the registry.  On registry [B(inactive), A]
the code selects A (the first healthy node) but moves B (the front of the
full list) to the back, leaving the selected A at the front. -/
theorem C2_selected_node_not_moved_to_back :
    select_node_for_operation 100 30 [nodeBdown, nodeA] = .ok (nodeA, [nodeA, nodeBdown]) ∧
    [nodeA, nodeBdown].getLast? = some nodeBdown ∧
    nodeBdown ≠ nodeA :=
  ⟨rfl, rfl, by decide⟩

/-- **C3** (code_bug evaluation).  Claim: with N currently-healthy nodes,
N consecutive selections return each healthy node exactly once.  On registry
[B(inactive), A, C] there are N = 2 healthy nodes {A, C}, yet two consecutive
selections both return A (C is never returned): each call rotates the front
node instead of the selected one. -/
theorem C3_two_selects_repeat_A :
    get_healthy_nodes 100 30 [nodeBdown, nodeA, nodeC] 1 = .ok [nodeA, nodeC] ∧
    select_node_for_operation 100 30 [nodeBdown, nodeA, nodeC] =
      .ok (nodeA, [nodeA, nodeC, nodeBdown]) ∧
    select_node_for_operation 100 30 [nodeA, nodeC, nodeBdown] =
      .ok (nodeA, [nodeC, nodeBdown, nodeA]) :=
  ⟨rfl, rfl, rfl⟩

/-! ### C4: insufficient-capacity boundary -/

/-- **C4**.  With exactly `m - 1` healthy (active, fresh-heartbeat) nodes,
`get_healthy_nodes` with `min_nodes = m` raises; with exactly `m` it
succeeds and returns exactly those `m` nodes (the healthy filter). -/
theorem C4_insufficient_capacity_boundary (now timeout : Int) (nodes : List Node)
    (m : Nat) (hm : 1 ≤ m) :
    ((nodes.filter (isHealthy now timeout)).length = m - 1 →
      get_healthy_nodes now timeout nodes m = .error .insufficient) ∧
    ((nodes.filter (isHealthy now timeout)).length = m →
      get_healthy_nodes now timeout nodes m = .ok (nodes.filter (isHealthy now timeout))) := by
  constructor
  · intro h
    simp only [get_healthy_nodes, h]
    rw [if_pos (Nat.sub_lt hm Nat.one_pos)]
  · intro h
    simp only [get_healthy_nodes, h]
    rw [if_neg (lt_irrefl m)]

/-- Witness for C4 at `m = 1`: the empty registry has `0 = m - 1` healthy
nodes and raises; the registry `[nodeA]` has exactly one healthy node and
returns it. -/
theorem C4_insufficient_capacity_boundary_witness :
    (1 : Nat) ≤ 1 ∧
    get_healthy_nodes 100 30 ([] : List Node) 1 = .error .insufficient ∧
    get_healthy_nodes 100 30 [nodeA] 1 = .ok [nodeA] :=
  ⟨le_rfl,
   (C4_insufficient_capacity_boundary 100 30 [] 1 le_rfl).1 (by decide),
   (C4_insufficient_capacity_boundary 100 30 [nodeA] 1 le_rfl).2 (by decide)⟩

/-! ### C7: the health sweep is a pure status demotion -/

theorem healthUpdate_id (now timeout : Int) (n : Node) :
    (healthUpdate now timeout n).id = n.id := by
  by_cases h : now - n.last_heartbeat > timeout <;> simp [healthUpdate, h]

theorem healthUpdate_info (now timeout : Int) (n : Node) :
    (healthUpdate now timeout n).info = n.info := by
  by_cases h : now - n.last_heartbeat > timeout <;> simp [healthUpdate, h]

theorem healthUpdate_last_heartbeat (now timeout : Int) (n : Node) :
    (healthUpdate now timeout n).last_heartbeat = n.last_heartbeat := by
  by_cases h : now - n.last_heartbeat > timeout <;> simp [healthUpdate, h]

theorem healthUpdate_status (now timeout : Int) (n : Node) :
    (healthUpdate now timeout n).status =
      if now - n.last_heartbeat > timeout then Status.inactive else n.status := by
  by_cases h : now - n.last_heartbeat > timeout <;> simp [healthUpdate, h]

/-- **C7**.  A health sweep never removes a node (length preserved), leaves
`id`, `info` and `last_heartbeat` of every position unchanged, sets the
status of position `i` to `inactive` exactly when the heartbeat age exceeds
the timeout (and otherwise leaves it unchanged), and in particular never
flips an inactive node back to active. -/
theorem C7_sweep_frame (now timeout : Int) (nodes : List Node) :
    (health_check_sweep now timeout nodes).length = nodes.length ∧
    (∀ i : Nat, ((health_check_sweep now timeout nodes)[i]?).map Node.id =
      (nodes[i]?).map Node.id) ∧
    (∀ i : Nat, ((health_check_sweep now timeout nodes)[i]?).map Node.info =
      (nodes[i]?).map Node.info) ∧
    (∀ i : Nat, ((health_check_sweep now timeout nodes)[i]?).map Node.last_heartbeat =
      (nodes[i]?).map Node.last_heartbeat) ∧
    (∀ i : Nat, ((health_check_sweep now timeout nodes)[i]?).map Node.status =
      (nodes[i]?).map (fun n =>
        if now - n.last_heartbeat > timeout then Status.inactive else n.status)) ∧
    (∀ i : Nat, (nodes[i]?).map Node.status = some Status.inactive →
      ((health_check_sweep now timeout nodes)[i]?).map Node.status =
        some Status.inactive) := by
  refine ⟨by simp [health_check_sweep], ?_, ?_, ?_, ?_, ?_⟩
  · intro i
    simp only [health_check_sweep, List.getElem?_map]
    cases nodes[i]? with
    | none => rfl
    | some n => simp [healthUpdate_id]
  · intro i
    simp only [health_check_sweep, List.getElem?_map]
    cases nodes[i]? with
    | none => rfl
    | some n => simp [healthUpdate_info]
  · intro i
    simp only [health_check_sweep, List.getElem?_map]
    cases nodes[i]? with
    | none => rfl
    | some n => simp [healthUpdate_last_heartbeat]
  · intro i
    simp only [health_check_sweep, List.getElem?_map]
    cases nodes[i]? with
    | none => rfl
    | some n => simp [healthUpdate_status]
  · intro i h
    simp only [health_check_sweep, List.getElem?_map]
    cases hnn : nodes[i]? with
    | none => rw [hnn] at h; exact Option.noConfusion h
    | some n =>
      rw [hnn] at h
      simp only [Option.map_some'] at h ⊢
      rw [healthUpdate_status]
      rw [Option.some_inj] at h
      split <;> simp [h]

/-- Witness for C7's conditional conjunct: the already-inactive `nodeBdown`
stays inactive through a sweep. -/
theorem C7_sweep_frame_witness :
    ([nodeBdown][0]?).map Node.status = some Status.inactive ∧
    ((health_check_sweep 100 30 [nodeBdown])[0]?).map Node.status =
      some Status.inactive :=
  ⟨rfl, (C7_sweep_frame 100 30 [nodeBdown]).2.2.2.2.2 0 rfl⟩

/-! ### C10: the exact-boundary node is active but never healthy -/

/-- **C10**.  For a node whose heartbeat age equals the timeout exactly, the
healthy filter rejects it (strict `<` at line 89), so `get_healthy_nodes`
never returns it, while the sweep does not demote it (strict `>` at line
136): it stays `active` yet is never reported healthy. -/
theorem C10_boundary_active_but_unhealthy (now timeout : Int) (n : Node)
    (hage : now - n.last_heartbeat = timeout) (hactive : n.status = Status.active) :
    isHealthy now timeout n = false ∧
    (∀ (nodes : List Node) (min_nodes : Nat) (l : List Node),
      get_healthy_nodes now timeout nodes min_nodes = .ok l → n ∉ l) ∧
    healthUpdate now timeout n = n ∧
    (healthUpdate now timeout n).status = Status.active := by
  have hh : isHealthy now timeout n = false := by
    simp [isHealthy, hage]
  have hu : healthUpdate now timeout n = n := by
    simp [healthUpdate, hage]
  refine ⟨hh, ?_, hu, by rw [hu]; exact hactive⟩
  intro nodes min_nodes l hok hmem
  simp only [get_healthy_nodes] at hok
  split at hok
  · exact Except.noConfusion hok
  · rw [Except.ok.injEq] at hok
    subst hok
    have := List.of_mem_filter hmem
    rw [hh] at this
    exact Bool.noConfusion this

/-- Witness for C10: `nodeX` has heartbeat age exactly 30 at time 100; it is
unhealthy, excluded from the healthy list of the registry `[nodeA, nodeX]`,
untouched by the sweep, and still active. -/
theorem C10_boundary_witness :
    isHealthy 100 30 nodeX = false ∧
    nodeX ∉ [nodeA] ∧
    healthUpdate 100 30 nodeX = nodeX ∧
    (healthUpdate 100 30 nodeX).status = Status.active :=
  have h := C10_boundary_active_but_unhealthy 100 30 nodeX (by decide) rfl
  ⟨h.1, h.2.1 [nodeA, nodeX] 1 [nodeA] rfl, h.2.2.1, h.2.2.2⟩

theorem decide_bool_eq (b : Bool) : decide (b = true) = b := by
  cases b <;> rfl

theorem countP_map_runOutcome_failed {δ ρ : Type}
    (operation : Node → δ → Except String ρ) (data : δ) (l : List Node) :
    (l.map (runOutcome operation data)).countP Outcome.statusFailed =
      (l.filter fun n => opRaises (operation n data)).length := by
  induction l with
  | nil => rfl
  | cons a t ih =>
      simp only [List.map_cons, List.countP_cons, List.filter_cons]
      cases hop : operation a data <;>
        simp [runOutcome, hop, Outcome.statusFailed, opRaises, ih]

theorem countP_map_runOutcome_success {δ ρ : Type}
    (operation : Node → δ → Except String ρ) (data : δ) (l : List Node) :
    (l.map (runOutcome operation data)).countP Outcome.statusSuccess =
      (l.filter fun n => !opRaises (operation n data)).length := by
  induction l with
  | nil => rfl
  | cons a t ih =>
      simp only [List.map_cons, List.countP_cons, List.filter_cons]
      cases hop : operation a data <;>
        simp [runOutcome, hop, Outcome.statusSuccess, opRaises, ih]

theorem filter_length_split {α : Type} (p : α → Bool) (l : List α) :
    (l.filter p).length + (l.filter fun a => !(p a)).length = l.length := by
  induction l with
  | nil => rfl
  | cons a t ih =>
      simp only [List.filter_cons]
      cases h : p a <;> simp [h, List.length_cons] <;> omega

/-- **C5**.  For every positive concurrency bound (the source raises
`ValueError` from `ThreadPoolExecutor` for `max_workers = 0`, so that case
is excluded by hypothesis), `perform_distributed_operation` raises exactly
when no node is healthy; otherwise, with K = number of submitted nodes
(healthy nodes capped at `max_concurrent_nodes`) and F = number of submitted
nodes whose operation invocation raises, it returns exactly K outcomes of
which exactly F are marked `failed` and K - F are marked `success`. -/
theorem C5_dispatch_outcome_counts {δ ρ : Type} (now timeout : Int) (nodes : List Node)
    (operation : Node → δ → Except String ρ) (data : δ) (maxc : Nat)
    (hmaxc : 1 ≤ maxc) :
    (nodes.filter (isHealthy now timeout) = [] →
      perform_distributed_operation now timeout nodes operation data maxc =
        .error .insufficient) ∧
    (nodes.filter (isHealthy now timeout) ≠ [] →
      ∃ outcomes : Multiset (Outcome ρ),
        perform_distributed_operation now timeout nodes operation data maxc =
          .ok outcomes ∧
        Multiset.card outcomes =
          ((nodes.filter (isHealthy now timeout)).take maxc).length ∧
        Multiset.countP (fun o => o.statusFailed = true) outcomes =
          (((nodes.filter (isHealthy now timeout)).take maxc).filter
            (fun n => opRaises (operation n data))).length ∧
        Multiset.countP (fun o => o.statusSuccess = true) outcomes =
          ((nodes.filter (isHealthy now timeout)).take maxc).length -
            (((nodes.filter (isHealthy now timeout)).take maxc).filter
              (fun n => opRaises (operation n data))).length) := by
  constructor
  · intro h
    simp [perform_distributed_operation, get_healthy_nodes, h]
  · intro h
    have hlen : ¬ (nodes.filter (isHealthy now timeout)).length < 1 := by
      have := List.length_pos.mpr h
      omega
    have hok : get_healthy_nodes now timeout nodes 1 =
        .ok (nodes.filter (isHealthy now timeout)) := by
      simp only [get_healthy_nodes]
      rw [if_neg hlen]
    refine ⟨((((nodes.filter (isHealthy now timeout)).take maxc).map
      (runOutcome operation data) : List (Outcome ρ)) : Multiset (Outcome ρ)),
      ?_, ?_, ?_, ?_⟩
    · simp only [perform_distributed_operation, hok]
      rw [if_neg (by omega)]
    · rw [Multiset.coe_card, List.length_map]
    · rw [Multiset.coe_countP]
      simp only [decide_bool_eq]
      exact countP_map_runOutcome_failed operation data _
    · rw [Multiset.coe_countP]
      simp only [decide_bool_eq]
      have hsp := filter_length_split (fun n => opRaises (operation n data))
        ((nodes.filter (isHealthy now timeout)).take maxc)
      have hsc : List.countP (fun b => b.statusSuccess)
          (List.map (runOutcome operation data)
            ((nodes.filter (isHealthy now timeout)).take maxc)) =
          (((nodes.filter (isHealthy now timeout)).take maxc).filter
            (fun n => !opRaises (operation n data))).length :=
        countP_map_runOutcome_success operation data _
      omega

/-- Witness for C5 on a concrete registry with concurrency bound 3:
operation fails exactly on node C; also the empty registry raises. -/
theorem C5_dispatch_outcome_counts_witness :
    (1 : Nat) ≤ 3 ∧
    perform_distributed_operation 100 30 ([] : List Node)
      (fun n _ => if n.id = "C" then .error "boom" else .ok n.id) (0 : Nat) 3 =
      .error .insufficient ∧
    ∃ outcomes : Multiset (Outcome String),
      perform_distributed_operation 100 30 [nodeA, nodeBdown, nodeC]
        (fun n _ => if n.id = "C" then .error "boom" else .ok n.id) (0 : Nat) 3 =
        .ok outcomes ∧
      Multiset.card outcomes = 2 ∧
      Multiset.countP (fun o => o.statusFailed = true) outcomes = 1 ∧
      Multiset.countP (fun o => o.statusSuccess = true) outcomes = 2 - 1 :=
  ⟨by decide,
   (C5_dispatch_outcome_counts 100 30 []
      (fun n _ => if n.id = "C" then .error "boom" else .ok n.id) 0 3 (by decide)).1 rfl,
   (C5_dispatch_outcome_counts 100 30 [nodeA, nodeBdown, nodeC]
      (fun n _ => if n.id = "C" then .error "boom" else .ok n.id) 0 3 (by decide)).2
     (by decide)⟩

theorem rotateFront_perm (l : List Node) : (rotateFront l).Perm l := by
  cases l with
  | nil => exact List.Perm.refl _
  | cons x xs => exact List.perm_append_singleton x xs

theorem select_ok_rotate (now timeout : Int) (nodes : List Node) (p : Node × List Node)
    (h : select_node_for_operation now timeout nodes = .ok p) :
    p.2 = rotateFront nodes := by
  simp only [select_node_for_operation] at h
  split at h
  · exact Except.noConfusion h
  · exact Except.noConfusion h
  · rw [Except.ok.injEq] at h
    rw [← h]

theorem nodeIds_sweep (now timeout : Int) (l : List Node) :
    (health_check_sweep now timeout l).map Node.id = l.map Node.id := by
  unfold health_check_sweep
  rw [List.map_map]
  exact List.map_congr_left (fun n _ => healthUpdate_id now timeout n)

theorem stepOp_spec (supply : Nat → String) (timeout : Int)
    (hinj : Function.Injective supply) (st : ClusterState) (op : ClusterOp)
    (h : IdInvariant supply st) :
    IdInvariant supply (stepOp supply timeout st op).1 ∧
    st.drawn ≤ (stepOp supply timeout st op).1.drawn ∧
    (∀ r, (stepOp supply timeout st op).2 = some r →
      r = supply st.drawn ∧ st.drawn < (stepOp supply timeout st op).1.drawn) := by
  cases op with
  | addNode info now =>
      simp only [stepOp, add_node]
      refine ⟨⟨?_, ?_⟩, Nat.le_succ _, ?_⟩
      · simp only [List.map_append, List.map_cons, List.map_nil]
        refine List.Nodup.append h.1 (List.nodup_singleton _) ?_
        intro a ha hb
        rw [List.mem_singleton] at hb
        obtain ⟨n, hn, hna⟩ := List.mem_map.mp ha
        obtain ⟨i, hilt, hid⟩ := h.2 n hn
        have : i = st.drawn := hinj (by rw [← hid, hna, hb])
        omega
      · intro n hn
        rcases List.mem_append.mp hn with h1 | h2
        · obtain ⟨i, hi, hid⟩ := h.2 n h1
          exact ⟨i, Nat.lt_succ_of_lt hi, hid⟩
        · rw [List.mem_singleton] at h2
          subst h2
          exact ⟨st.drawn, Nat.lt_succ_self _, rfl⟩
      · intro r hr
        rw [Option.some_inj] at hr
        exact ⟨hr.symm, Nat.lt_succ_self _⟩
  | removeNode nid =>
      simp only [stepOp, remove_node]
      refine ⟨⟨?_, ?_⟩, le_rfl, fun r hr => Option.noConfusion hr⟩
      · exact ((List.filter_sublist _).map Node.id).nodup h.1
      · intro n hn
        exact h.2 n (List.mem_of_mem_filter hn)
  | selectNode now =>
      cases hsel : select_node_for_operation now timeout st.nodes with
      | error e =>
          simp only [stepOp, hsel]
          exact ⟨h, le_rfl, fun r hr => Option.noConfusion hr⟩
      | ok p =>
          have hns : p.2 = rotateFront st.nodes :=
            select_ok_rotate now timeout st.nodes p hsel
          simp only [stepOp, hsel, hns]
          refine ⟨⟨?_, ?_⟩, le_rfl, fun r hr => Option.noConfusion hr⟩
          · exact ((rotateFront_perm st.nodes).map Node.id).nodup_iff.mpr h.1
          · intro m hm
            exact h.2 m ((rotateFront_perm st.nodes).mem_iff.mp hm)
  | healthSweep now =>
      simp only [stepOp]
      refine ⟨⟨?_, ?_⟩, le_rfl, fun r hr => Option.noConfusion hr⟩
      · rw [nodeIds_sweep]
        exact h.1
      · intro m hm
        simp only [health_check_sweep] at hm
        obtain ⟨n0, hn0, rfl⟩ := List.mem_map.mp hm
        obtain ⟨i, hi, hid⟩ := h.2 n0 hn0
        exact ⟨i, hi, by rw [healthUpdate_id]; exact hid⟩

theorem runOps_spec (supply : Nat → String) (timeout : Int)
    (hinj : Function.Injective supply) :
    ∀ (ops : List ClusterOp) (st : ClusterState), IdInvariant supply st →
      IdInvariant supply (runOps supply timeout st ops).1 ∧
      st.drawn ≤ (runOps supply timeout st ops).1.drawn ∧
      (∀ r ∈ (runOps supply timeout st ops).2,
        ∃ i, st.drawn ≤ i ∧ i < (runOps supply timeout st ops).1.drawn ∧ r = supply i) ∧
      (runOps supply timeout st ops).2.Nodup := by
  intro ops
  induction ops with
  | nil =>
      intro st h
      exact ⟨h, le_rfl, by simp [runOps], by simp [runOps]⟩
  | cons op ops ih =>
      intro st h
      obtain ⟨hstep, hdr, hret⟩ := stepOp_spec supply timeout hinj st op h
      obtain ⟨hI, hle, hmem, hnd⟩ := ih (stepOp supply timeout st op).1 hstep
      simp only [runOps]
      refine ⟨hI, le_trans hdr hle, ?_, ?_⟩
      · intro r hr
        rcases List.mem_append.mp hr with hr1 | hr2
        · cases hs : (stepOp supply timeout st op).2 with
          | none => rw [hs] at hr1; exact absurd hr1 (by simp)
          | some x =>
              rw [hs] at hr1
              rw [Option.toList_some, List.mem_singleton] at hr1
              subst hr1
              obtain ⟨hx, hlt⟩ := hret r hs
              exact ⟨st.drawn, le_rfl, lt_of_lt_of_le hlt hle, hx⟩
        · obtain ⟨i, hi1, hi2, hi3⟩ := hmem r hr2
          exact ⟨i, le_trans hdr hi1, hi2, hi3⟩
      · cases hs : (stepOp supply timeout st op).2 with
        | none => simpa [hs] using hnd
        | some x =>
            rw [Option.toList_some, List.singleton_append]
            refine List.nodup_cons.mpr ⟨?_, hnd⟩
            intro hxr
            obtain ⟨hx, hlt⟩ := hret x hs
            obtain ⟨i, hi1, hi2, hi3⟩ := hmem x hxr
            have : st.drawn = i := hinj (by rw [← hx, ← hi3])
            omega

/-- **C6**.  For every sequence of manager calls starting from the empty
registry, if the uuid stream never repeats then the ids returned by the
`add_node` calls are pairwise distinct, and the registry's ids are pairwise
distinct afterwards (every prefix of a sequence is itself a sequence, so
this gives distinctness at all times). -/
theorem C6_node_ids_unique (supply : Nat → String) (timeout : Int)
    (hinj : Function.Injective supply) (ops : List ClusterOp) :
    (runOps supply timeout ⟨[], 0⟩ ops).2.Nodup ∧
    ((runOps supply timeout ⟨[], 0⟩ ops).1.nodes.map Node.id).Nodup := by
  have h0 : IdInvariant supply ⟨[], 0⟩ := ⟨List.nodup_nil, by intro n hn; cases hn⟩
  obtain ⟨hI, _, _, hnd⟩ := runOps_spec supply timeout hinj ops ⟨[], 0⟩ h0
  exact ⟨hnd, hI.1⟩

/-- Witness for C6: three `add_node` calls with a remove and a sweep in
between, under an injective stream, return distinct ids and leave distinct
registry ids. -/
theorem C6_node_ids_unique_witness :
    Function.Injective unarySupply ∧
    ((runOps unarySupply 30 ⟨[], 0⟩
        [.addNode "h1" 100, .addNode "h2" 100, .removeNode "a",
         .healthSweep 100, .addNode "h3" 100]).2.Nodup ∧
      ((runOps unarySupply 30 ⟨[], 0⟩
        [.addNode "h1" 100, .addNode "h2" 100, .removeNode "a",
         .healthSweep 100, .addNode "h3" 100]).1.nodes.map Node.id).Nodup) :=
  have hinj : Function.Injective unarySupply := by
    intro a b hab
    have := congrArg (fun s : String => s.data.length) hab
    simpa [unarySupply] using this
  ⟨hinj, C6_node_ids_unique unarySupply 30 hinj _⟩

/-- **C8 counterexample**.  The claim that every mutating operation and every
snapshotting read are mutually exclusive with each other is false on the
code: the health sweep's status flip shares no lock with the selection
rotation, and the public healthy-nodes read holds no lock at all. -/
theorem C8_not_all_mutually_exclusive :
    mutexWith .healthSweepFlip .selectRotate = false ∧
    mutexWith .healthySnapshot .addNode = false ∧
    pairwiseMutex [.addNode, .removeNode, .selectRotate, .healthSweepFlip,
      .healthySnapshot] = false := by
  decide

/-- **C8 amended**.  `add_node`, `remove_node` and the selection rotation are
pairwise mutually exclusive (all hold `_nodes_lock`), but the health sweep's
status flip holds only the separate `_health_check_lock` and so excludes
none of them, and the public healthy-nodes snapshot holds no lock. -/
theorem C8_lock_structure :
    pairwiseMutex [.addNode, .removeNode, .selectRotate] = true ∧
    mutexWith .healthSweepFlip .addNode = false ∧
    mutexWith .healthSweepFlip .removeNode = false ∧
    mutexWith .healthSweepFlip .selectRotate = false ∧
    mutexWith .healthSweepFlip .healthySnapshot = false ∧
    locksHeld .healthySnapshot = [] := by
  decide

/-- **C9**.  A manager constructed with a nonempty `initial_nodes` list
stores those entries exactly as passed, with no `id`, `status` or
`last_heartbeat` assigned; consequently every `get_healthy_nodes` call over
such a registry raises `KeyError('status')` and a health sweep over it
raises `KeyError('last_heartbeat')` instead of treating the entries as
registered nodes. -/
theorem C9_initial_nodes_unregistered (l : List RawNode) (now timeout : Int)
    (hne : l ≠ [])
    (hkeys : ∀ n ∈ l, dictGet n "status" = .error "status" ∧
      dictGet n "last_heartbeat" = .error "last_heartbeat") :
    clusterManager_init (some l) = l ∧
    (∀ min_nodes : Nat, raw_get_healthy_nodes now timeout l min_nodes =
      .error (.keyError "status")) ∧
    raw_health_sweep now timeout l = .error (.keyError "last_heartbeat") := by
  obtain ⟨n, ns, rfl⟩ : ∃ n ns, l = n :: ns := by
    cases l with
    | nil => exact absurd rfl hne
    | cons a t => exact ⟨a, t, rfl⟩
  have hk := hkeys n (List.mem_cons_self n ns)
  refine ⟨?_, ?_, ?_⟩
  · simp [clusterManager_init]
  · intro min_nodes
    simp only [raw_get_healthy_nodes, rawFilterHealthy, rawIsHealthy, hk.1]
  · simp only [raw_health_sweep, hk.2]

/-- Witness for C9 on the `__main__` example nodes: stored as-is, and both
reads over them reach the corresponding `KeyError`. -/
theorem C9_initial_nodes_unregistered_witness :
    rawInitialNodes ≠ [] ∧
    clusterManager_init (some rawInitialNodes) = rawInitialNodes ∧
    raw_get_healthy_nodes 100 30 rawInitialNodes 1 = .error (.keyError "status") ∧
    raw_health_sweep 100 30 rawInitialNodes = .error (.keyError "last_heartbeat") :=
  have h := C9_initial_nodes_unregistered rawInitialNodes 100 30 (by decide)
    (by intro n hn; refine ⟨?_, ?_⟩ <;> fin_cases hn <;> rfl)
  ⟨by decide, h.1, h.2.1 1, h.2.2⟩

end ClusterManager
